import Mathlib

/-
Verification development for the transit-performance analysis program
(`transit_performance_analysis.py`).  The Python source is shallowly embedded:

* Python values flowing through the program are modelled by `PyVal`
  (JSON-like dynamic values).  Machine floats are modelled by `ℚ`, so the
  arithmetic of the embedding is the exact arithmetic the algorithms intend;
  rounding of IEEE doubles is out of scope.
* `datetime` objects are modelled by `PyDateTime`: either offset-naive
  (a wall-clock instant) or offset-aware (wall clock plus a UTC offset).
  The local timezone used by `datetime.fromtimestamp` is an explicit
  parameter `tz` (seconds east of UTC).
* Functions that can raise a Python exception return `Option`/nested
  `Option`; `Option.none` at the outer layer means "raises", mirroring the
  caller's `try/except` handling.
* Python's builtin `sorted`/`list.sort` (a stable sort by key) is modelled
  with insertion sort; all sort keys produced by the program are pairwise
  distinct, so any correct sort yields the same list.
-/

namespace Transit

/-! ### Character-list string helpers (kernel-friendly replacements for
`in`, `.upper()`, `.lower()`, `.strip()` on Python strings) -/

/-- Whether the pattern (second argument) is a prefix of the first list. -/
def hasPrefixCh : List Char → List Char → Bool
  | _, [] => true
  | [], _ :: _ => false
  | a :: as, b :: bs => a == b && hasPrefixCh as bs

/-- Whether the pattern (second argument) occurs as a contiguous substring. -/
def hasSubCh : List Char → List Char → Bool
  | [], pat => pat.isEmpty
  | a :: as, pat => hasPrefixCh (a :: as) pat || hasSubCh as pat

/-- Python's `pat in hay` on strings. -/
def strContainsSub (hay pat : String) : Bool := hasSubCh hay.data pat.data

/-- Python's `str.upper()` (ASCII part, which is all the program compares). -/
def strUpper (s : String) : String := String.mk (s.data.map Char.toUpper)

/-- Python's `str.lower()` (ASCII part). -/
def strLower (s : String) : String := String.mk (s.data.map Char.toLower)

/-- Trim whitespace from both ends, Python's `str.strip()`. -/
def trimCh (cs : List Char) : List Char :=
  ((cs.dropWhile Char.isWhitespace).reverse.dropWhile Char.isWhitespace).reverse

/-- String version of `trimCh`. -/
def strTrim (s : String) : String := String.mk (trimCh s.data)

/-- Value of a decimal digit character. -/
def digitVal? (c : Char) : Option ℕ :=
  if '0' ≤ c ∧ c ≤ '9' then some (c.toNat - 48) else Option.none

/-- Accumulate decimal digits; fails on a non-digit. -/
def digitsToNatAux : List Char → ℕ → Option ℕ
  | [], acc => some acc
  | c :: cs, acc =>
    match digitVal? c with
    | some d => digitsToNatAux cs (acc * 10 + d)
    | Option.none => Option.none

/-- Parse a non-empty all-digit string as a natural number. -/
def digitsToNat : List Char → Option ℕ
  | [] => Option.none
  | cs => digitsToNatAux cs 0

/-- Python's `int(str)` restricted to optionally signed decimal literals
(the shape `$numberLong` payloads take). -/
def parseIntStr (s : String) : Option ℤ :=
  match s.data with
  | '-' :: ds => (digitsToNat ds).map (fun n => -(n : ℤ))
  | '+' :: ds => (digitsToNat ds).map (fun n => (n : ℤ))
  | ds => (digitsToNat ds).map (fun n => (n : ℤ))

/-! ### Dynamic Python/JSON values -/

/-- A dynamic Python value as the program sees its JSON input. -/
inductive PyVal where
  | none
  | bool (b : Bool)
  | int (n : ℤ)
  | float (q : ℚ)
  | str (s : String)
  | list (xs : List PyVal)
  | dict (entries : List (String × PyVal))

/-- First-match association-list lookup: Python `d[key]` / `key in d`. -/
def lookupKey : List (String × PyVal) → String → Option PyVal
  | [], _ => Option.none
  | (k, v) :: es, key => if k = key then some v else lookupKey es key

/-- Python truthiness. -/
def pyTruthy : PyVal → Bool
  | .none => false
  | .bool b => b
  | .int n => n != 0
  | .float q => q != 0
  | .str s => s != ""
  | .list xs => !xs.isEmpty
  | .dict es => !es.isEmpty

/-- Whether the value is a mapping (`isinstance(x, dict)`). -/
def PyVal.isDict : PyVal → Bool
  | .dict _ => true
  | _ => false

/-- Python `str()` as used in the program's f-string interpolation.  The
program only ever interpolates strings, numbers, `None` and booleans coming
from JSON; containers are stylised. -/
def pyStr : PyVal → String
  | .none => "None"
  | .bool b => if b then "True" else "False"
  | .int n => toString n
  | .float _ => "<float>"
  | .str s => s
  | .list _ => "<list>"
  | .dict _ => "<dict>"

/-- Embedding of `get_nested_value(data, *keys, default=default)`
(source lines 37–44): walk the key path while the current value is a dict
containing the key, otherwise return the default; a final explicit `None`
also falls back to the default. -/
def get_nested_value (data : PyVal) (keys : List String) (default : PyVal) : PyVal :=
  match keys with
  | [] =>
    match data with
    | .none => default
    | v => v
  | k :: ks =>
    match data with
    | .dict es =>
      match lookupKey es k with
      | some v => get_nested_value v ks default
      | Option.none => default
    | _ => default

/-- Python iteration (`for x in v`): lists yield elements, strings yield
one-character strings, dicts yield their keys; other values raise. -/
def pyIter : PyVal → Option (List PyVal)
  | .list xs => some xs
  | .str s => some (s.data.map (fun c => .str (String.mk [c])))
  | .dict es => some (es.map (fun kv => .str kv.1))
  | _ => Option.none

/-! ### The datetime model -/

/-- A Python `datetime`: offset-naive (wall clock, seconds) or offset-aware
(wall clock plus UTC offset, seconds). -/
inductive PyDateTime where
  | naive (wall : ℚ)
  | aware (wall : ℚ) (offset : ℚ)
deriving DecidableEq

/-- Python `datetime.fromtimestamp(epoch)`: an offset-naive local wall-clock
datetime; `tz` is the local UTC offset in seconds. -/
def fromtimestamp (tz : ℚ) (epoch : ℚ) : PyDateTime := .naive (epoch + tz)

/-- Python `dt.timestamp()`: seconds since the epoch (naive datetimes are
interpreted in the local timezone `tz`). -/
def dtTimestamp (tz : ℚ) : PyDateTime → ℚ
  | .naive w => w - tz
  | .aware w off => w - off

/-- Python `a - b` on datetimes, in seconds; mixing an offset-naive and an
offset-aware operand raises `TypeError` (modelled as `Option.none`). -/
def pySubDt : PyDateTime → PyDateTime → Option ℚ
  | .naive a, .naive b => some (a - b)
  | .aware a oa, .aware b ob => some ((a - oa) - (b - ob))
  | _, _ => Option.none

/-- Python `a == b` on datetimes: equal wall clocks for two naive values,
equal instants for two aware values, and always `False` across the
naive/aware divide. -/
def pyDtEq : PyDateTime → PyDateTime → Bool
  | .naive a, .naive b => a == b
  | .aware a oa, .aware b ob => (a - oa) == (b - ob)
  | _, _ => false

/-! ### Proleptic-Gregorian calendar arithmetic (for ISO parsing and
`strftime`) -/

/-- Gregorian leap year. -/
def isLeapYear (y : ℤ) : Bool := y % 4 == 0 && (y % 100 != 0 || y % 400 == 0)

/-- Number of days in a month. -/
def daysInMonth (y m : ℤ) : ℤ :=
  if m = 2 then (if isLeapYear y then 29 else 28)
  else if m = 4 ∨ m = 6 ∨ m = 9 ∨ m = 11 then 30
  else 31

/-- Days since 1970-01-01 of a Gregorian civil date (Hinnant's algorithm). -/
def daysFromCivil (y m d : ℤ) : ℤ :=
  let y' := if m ≤ 2 then y - 1 else y
  let era := y'.fdiv 400
  let yoe := y' - era * 400
  let mp := (m + 9) % 12
  let doy := (153 * mp + 2).fdiv 5 + d - 1
  let doe := yoe * 365 + yoe.fdiv 4 - yoe.fdiv 100 + doy
  era * 146097 + doe - 719468

/-- Inverse of `daysFromCivil`: year, month, day from days since the epoch. -/
def civilFromDays (z0 : ℤ) : ℤ × ℤ × ℤ :=
  let z := z0 + 719468
  let era := z.fdiv 146097
  let doe := z - era * 146097
  let yoe := (doe - doe.fdiv 1461 + doe.fdiv 36524 - doe.fdiv 146097).fdiv 365
  let y := yoe + era * 400
  let doy := doe - (365 * yoe + yoe.fdiv 4 - yoe.fdiv 100)
  let mp := (5 * doy + 2).fdiv 153
  let d := doy - (153 * mp + 2).fdiv 5 + 1
  let m := mp + (if mp < 10 then 3 else -9)
  (if m ≤ 2 then y + 1 else y, m, d)

/-! ### ISO-8601 parsing (`datetime.fromisoformat`) -/

/-- Hours/minutes/seconds digits plus a fraction, to seconds; validates the
field ranges exactly as the `datetime` constructor does. -/
def hmsVal (h1 h2 m1 m2 s1 s2 : Char) (frac : ℚ) : Option ℚ := do
  let hh ← digitsToNat [h1, h2]
  let mm ← digitsToNat [m1, m2]
  let ss ← digitsToNat [s1, s2]
  if hh < 24 ∧ mm < 60 ∧ ss < 60 then
    pure ((hh : ℚ) * 3600 + (mm : ℚ) * 60 + (ss : ℚ) + frac)
  else Option.none

/-- A 3- or 6-digit fractional-seconds field, as `fromisoformat` accepts. -/
def fracVal : List Char → Option ℚ
  | [a, b, c] => (digitsToNat [a, b, c]).map (fun x => (x : ℚ) / 1000)
  | [a, b, c, d, e, f] => (digitsToNat [a, b, c, d, e, f]).map (fun x => (x : ℚ) / 1000000)
  | _ => Option.none

/-- Time-of-day portion `HH[:MM[:SS[.fff[fff]]]]`, in seconds. -/
def parseTimeChars : List Char → Option ℚ
  | [h1, h2] => hmsVal h1 h2 '0' '0' '0' '0' 0
  | [h1, h2, ':', m1, m2] => hmsVal h1 h2 m1 m2 '0' '0' 0
  | [h1, h2, ':', m1, m2, ':', s1, s2] => hmsVal h1 h2 m1 m2 s1 s2 0
  | h1 :: h2 :: ':' :: m1 :: m2 :: ':' :: s1 :: s2 :: '.' :: rest => do
    let f ← fracVal rest
    hmsVal h1 h2 m1 m2 s1 s2 f
  | _ => Option.none

/-- Split the time substring at the first `+`/`-` (the UTC-offset marker);
returns the time chars and, if present, the offset sign and chars. -/
def splitAtSign : List Char → List Char × Option (Bool × List Char)
  | [] => ([], Option.none)
  | c :: rest =>
    if c = '+' then ([], some (false, rest))
    else if c = '-' then ([], some (true, rest))
    else
      let p := splitAtSign rest
      (c :: p.1, p.2)

/-- UTC-offset field `HH:MM[:SS]`, in seconds. -/
def offsetVal : List Char → Option ℚ
  | [h1, h2, ':', m1, m2] => hmsVal h1 h2 m1 m2 '0' '0' 0
  | [h1, h2, ':', m1, m2, ':', s1, s2] => hmsVal h1 h2 m1 m2 s1 s2 0
  | _ => Option.none

/-- Date portion `YYYY-MM-DD` to days since the epoch, validating ranges. -/
def parseDateCh (y1 y2 y3 y4 m1 m2 d1 d2 : Char) : Option ℤ := do
  let y ← digitsToNat [y1, y2, y3, y4]
  let m ← digitsToNat [m1, m2]
  let d ← digitsToNat [d1, d2]
  if 1 ≤ y ∧ 1 ≤ m ∧ m ≤ 12 ∧ 1 ≤ d ∧ (d : ℤ) ≤ daysInMonth (y : ℤ) (m : ℤ) then
    pure (daysFromCivil (y : ℤ) (m : ℤ) (d : ℤ))
  else Option.none

/-- Model of `datetime.fromisoformat`: `YYYY-MM-DD[*HH[:MM[:SS[.fff[fff]]]]`
`[±HH:MM[:SS]]]`; an explicit offset yields an offset-aware datetime. -/
def fromIso (s : String) : Option PyDateTime :=
  match s.data with
  | y1 :: y2 :: y3 :: y4 :: '-' :: m1 :: m2 :: '-' :: d1 :: d2 :: rest => do
    let days ← parseDateCh y1 y2 y3 y4 m1 m2 d1 d2
    match rest with
    | [] => pure (.naive ((days : ℚ) * 86400))
    | _sep :: timecs =>
      let p := splitAtSign timecs
      let tod ← parseTimeChars p.1
      let wall := (days : ℚ) * 86400 + tod
      match p.2 with
      | Option.none => pure (.naive wall)
      | some (neg, ocs) => do
        let ov ← offsetVal ocs
        pure (.aware wall (if neg then -ov else ov))
  | _ => Option.none

/-- Python's `s.replace("Z", "+00:00")`. -/
def replaceZ (s : String) : String :=
  String.mk (s.data.foldr
    (fun c acc => if c = 'Z' then '+' :: '0' :: '0' :: ':' :: '0' :: '0' :: acc else c :: acc) [])

/-- Whether the string contains the character (`'+' in s`). -/
def strHasChar (s : String) (c : Char) : Bool := s.data.contains c

/-- Whether the string ends with `'Z'` (`s.endswith('Z')`). -/
def strEndsWithZ (s : String) : Bool := s.data.getLast? == some 'Z'

/-- Python `int(x)` truncation of a float toward zero. -/
def ratTrunc (q : ℚ) : ℤ := q.num / (q.den : ℤ)

/-- Embedding of `parse_timestamp` (source lines 12–34).  `tz` is the local
UTC offset used by `datetime.fromtimestamp`.  Failures inside the `try`
block are caught in the source and produce `None`, so the embedding is a
total function into `Option PyDateTime`. -/
def parse_timestamp (tz : ℚ) : PyVal → Option PyDateTime
  | .none => Option.none
  | .dict es =>
    match lookupKey es "$numberLong" with
    | some (.str s) => (parseIntStr s).map (fun ms => fromtimestamp tz ((ms : ℚ) / 1000))
    | some (.int n) => some (fromtimestamp tz ((n : ℚ) / 1000))
    | some (.bool b) => some (fromtimestamp tz ((if b then (1 : ℚ) else 0) / 1000))
    | some (.float q) => some (fromtimestamp tz ((ratTrunc q : ℚ) / 1000))
    | some _ => Option.none
    | Option.none => Option.none
  | .str s =>
    if strHasChar s '+' || strEndsWithZ s then fromIso (replaceZ s) else fromIso s
  | .int n => some (fromtimestamp tz ((n : ℚ) / 1000))
  | .float q => some (fromtimestamp tz (q / 1000))
  | .bool b => some (fromtimestamp tz ((if b then (1 : ℚ) else 0) / 1000))
  | .list _ => Option.none

/-- Zero-pad to two digits. -/
def pad2 (n : ℤ) : String := if n < 10 then "0" ++ toString n else toString n

/-- Zero-pad to four digits. -/
def pad4 (n : ℤ) : String :=
  if n < 10 then "000" ++ toString n
  else if n < 100 then "00" ++ toString n
  else if n < 1000 then "0" ++ toString n
  else toString n

/-- Floor of a rational as an integer. -/
def ratFloor (q : ℚ) : ℤ := q.num.fdiv (q.den : ℤ)

/-- Python `dt.strftime("%Y-%m-%d %H:%M:%S")`: formats the wall clock. -/
def formatDateTime (dt : PyDateTime) : String :=
  let wall := match dt with | .naive w => w | .aware w _ => w
  let t : ℤ := ratFloor wall
  let days := t.fdiv 86400
  let sod := t - 86400 * days
  let c := civilFromDays days
  pad4 c.1 ++ "-" ++ pad2 c.2.1 ++ "-" ++ pad2 c.2.2 ++ " " ++
    pad2 (sod.fdiv 3600) ++ ":" ++ pad2 ((sod.fdiv 60) % 60) ++ ":" ++ pad2 (sod % 60)

/-! ### Event classification -/

/-- The event's `eventType` field with default `""` (source lines 67, 81, 114, 183). -/
def eventTypeOf (e : PyVal) : PyVal := get_nested_value e ["eventType"] (.str "")

/-- The event's `eventDescription` field with default `""`. -/
def eventDescOf (e : PyVal) : PyVal := get_nested_value e ["eventDescription"] (.str "")

/-- Python `v == s` for a dynamic value against a string literal: only a
string is ever equal to a string. -/
def pyEqStr : PyVal → String → Bool
  | .str t, s => t == s
  | _, _ => false

/-- Predicate from `find_pickup_event` (source line 70). -/
def isPickupEvent (e : PyVal) : Bool :=
  pyEqStr (eventTypeOf e) "PU" || strContainsSub (strLower (pyStr (eventDescOf e))) "pick"

/-- Predicate from `find_delivery_event` (source line 84). -/
def isDeliveryEvent (e : PyVal) : Bool :=
  pyEqStr (eventTypeOf e) "DL" || strContainsSub (strLower (pyStr (eventDescOf e))) "deliver"

/-- Predicate from `count_delivery_attempts` (source lines 186–188). -/
def isOutForDeliveryEvent (e : PyVal) : Bool :=
  pyEqStr (eventTypeOf e) "OD" ||
    strContainsSub (strLower (pyStr (eventDescOf e))) "vehicle" ||
    strContainsSub (strLower (pyStr (eventDescOf e))) "out for delivery"

/-- Embedding of `find_pickup_event` (source lines 62–73): first event, in
input order, matching the pickup rule; outer `Option.none` models the
`TypeError` raised when `events` is truthy but not iterable. -/
def find_pickup_event (events : PyVal) : Option (Option PyVal) :=
  if !pyTruthy events then some Option.none
  else
    match pyIter events with
    | Option.none => Option.none
    | some xs => some (xs.find? isPickupEvent)

/-- Embedding of `find_delivery_event` (source lines 76–87). -/
def find_delivery_event (events : PyVal) : Option (Option PyVal) :=
  if !pyTruthy events then some Option.none
  else
    match pyIter events with
    | Option.none => Option.none
    | some xs => some (xs.find? isDeliveryEvent)

/-- The event's `arrivalLocation` field with default `""` (source lines 96, 148–149). -/
def facilityLocRaw (e : PyVal) : PyVal := get_nested_value e ["arrivalLocation"] (.str "")

/-- Facility-arrival test of `count_unique_facilities` (source line 97):
`arrival_location and "FACILITY" in str(arrival_location).upper()`. -/
def isFacByStr (e : PyVal) : Bool :=
  let loc := facilityLocRaw e
  pyTruthy loc && strContainsSub (strUpper (pyStr loc)) "FACILITY"

/-- The `facility_id` string of `count_unique_facilities` (source line 101):
`f"{arrival_location}_{city}_{postal_code}".strip()`. -/
def facilityId (e : PyVal) : String :=
  let loc := facilityLocRaw e
  let addr := get_nested_value e ["address"] (.dict [])
  let city := get_nested_value addr ["city"] (.str "")
  let postal := get_nested_value addr ["postalCode"] (.str "")
  strTrim (pyStr loc ++ "_" ++ pyStr city ++ "_" ++ pyStr postal)

/-- Embedding of `count_unique_facilities` (source lines 90–105): the number
of distinct non-empty facility ids among facility-arrival events. -/
def count_unique_facilities (events : PyVal) : Option ℕ :=
  if !pyTruthy events then some 0
  else
    match pyIter events with
    | Option.none => Option.none
    | some xs =>
      some ((((xs.filter isFacByStr).map facilityId).filter (fun id => id != "")).dedup.length)

/-- Embedding of `count_transit_events` (source lines 108–118). -/
def count_transit_events (events : PyVal) : Option ℕ :=
  if !pyTruthy events then some 0
  else
    match pyIter events with
    | Option.none => Option.none
    | some xs => some (xs.countP (fun e => pyEqStr (eventTypeOf e) "IT"))

/-- Embedding of `count_delivery_attempts` (source lines 177–191). -/
def count_delivery_attempts (events : PyVal) : Option ℕ :=
  if !pyTruthy events then some 0
  else
    match pyIter events with
    | Option.none => Option.none
    | some xs => some (xs.countP isOutForDeliveryEvent)

/-- Embedding of `is_express_service` (source lines 194–202). -/
def is_express_service (service_type : PyVal) : Bool :=
  if !pyTruthy service_type then false
  else
    let su := strUpper (pyStr service_type)
    strContainsSub su "EXPRESS" && !(strContainsSub su "SAVER")

/-! ### Timeline builder (source lines 125–139) -/

/-- The normalized epoch-seconds of an event's timestamp, when parseable
(`parse_timestamp(...)` followed by `.timestamp()`, source lines 129–131). -/
def eventBase (tz : ℚ) (e : PyVal) : Option ℚ :=
  (parse_timestamp tz (get_nested_value e ["timestamp"] .none)).map (dtTimestamp tz)

/-- Fuelled version of the collision `while` loop (source lines 132–134):
starting at offset `k` milliseconds, advance while `b + k/1000` is already
taken. -/
def slotAux (b : ℚ) (seen : List ℚ) : ℕ → ℕ → ℕ
  | 0, k => k
  | fuel + 1, k => if b + (k : ℚ) / 1000 ∈ seen then slotAux b seen fuel (k + 1) else k

/-- Number of milliseconds of perturbation applied to base instant `b` given
the set `seen` of instants already taken.  `seen.length + 1` candidate
offsets cannot all collide with a list of `seen.length` values. -/
def slotIdx (seen : List ℚ) (b : ℚ) : ℕ := slotAux b seen (seen.length + 1) 0

/-- The adjusted instant recorded for an event with base instant `b`. -/
def slot (seen : List ℚ) (b : ℚ) : ℚ := b + (slotIdx seen b : ℚ) / 1000

/-- The timeline-building loop (source lines 128–137): events with
unparseable timestamps are dropped, every other event is paired with its
(possibly perturbed) adjusted instant, which is added to `seen`. -/
def buildAux (tz : ℚ) (seen : List ℚ) : List PyVal → List (ℚ × PyVal)
  | [] => []
  | e :: es =>
    match eventBase tz e with
    | Option.none => buildAux tz seen es
    | some b =>
      let f := slot seen b
      (f, e) :: buildAux tz (f :: seen) es

/-- The unsorted timeline of a shipment's event list. -/
def buildTimeline (tz : ℚ) (xs : List PyVal) : List (ℚ × PyVal) := buildAux tz [] xs

/-- Order on timeline entries used by `sorted_events.sort(key=lambda x: x[0])`. -/
def entryLE (x y : ℚ × PyVal) : Prop := x.1 ≤ y.1

instance : DecidableRel entryLE := fun x y => inferInstanceAs (Decidable (x.1 ≤ y.1))

instance : IsTotal (ℚ × PyVal) entryLE := ⟨fun a b => le_total a.1 b.1⟩

instance : IsTrans (ℚ × PyVal) entryLE := ⟨fun _ _ _ h1 h2 => le_trans h1 h2⟩

/-- Strict order on timeline entries by adjusted instant. -/
def entryLT (x y : ℚ × PyVal) : Prop := x.1 < y.1

instance : IsAntisymm (ℚ × PyVal) entryLT :=
  ⟨fun a _ h1 h2 => absurd (lt_trans h1 h2) (lt_irrefl a.1)⟩

/-- The sorted timeline (source line 139).  All adjusted instants are
pairwise distinct, so every correct sort — in particular Python's stable
sort — produces this list. -/
def sortTimeline (tz : ℚ) (xs : List PyVal) : List (ℚ × PyVal) :=
  List.insertionSort entryLE (buildTimeline tz xs)

/-! ### Facility transit accumulator (source lines 141–174) -/

/-- The facility test of the accumulator (source line 162):
`current_location and "FACILITY" in current_location.upper()`.  Unlike
`count_unique_facilities` there is no `str()` here, so a truthy non-string
raises `AttributeError` (modelled as `Option.none`). -/
def isFacLoc (locv : PyVal) : Option Bool :=
  if pyTruthy locv then
    match locv with
    | .str s => some (strContainsSub (strUpper s) "FACILITY")
    | _ => Option.none
  else some false

/-- The `FacilityKey` concatenation of the accumulator (source lines 159–160);
note: no `.strip()` here, unlike `count_unique_facilities`. -/
def facKey (e : PyVal) : String :=
  let loc := facilityLocRaw e
  let addr := get_nested_value e ["address"] (.dict [])
  let city := get_nested_value addr ["city"] (.str "")
  let postal := get_nested_value addr ["postalCode"] (.str "")
  pyStr loc ++ "_" ++ pyStr city ++ "_" ++ pyStr postal

/-- Contribution of one consecutive pair (source lines 165–172), given the
two already-evaluated facility tests. -/
def pairHours (x y : ℚ × PyVal) (bx byv : Bool) : ℚ :=
  if bx && byv && (facKey x.2 != facKey y.2) then
    let h := (y.1 - x.1) / 3600
    if 0 < h then h else 0
  else 0

/-- The accumulation loop over consecutive timeline pairs (source lines
144–172). -/
def facPairSum : List (ℚ × PyVal) → Option ℚ
  | x :: y :: rest => do
    let bx ← isFacLoc (facilityLocRaw x.2)
    let byv ← isFacLoc (facilityLocRaw y.2)
    let s ← facPairSum (y :: rest)
    pure (pairHours x y bx byv + s)
  | _ => some 0

/-- Embedding of `calculate_facility_transit_time` (source lines 121–174),
in hours. -/
def calculate_facility_transit_time (tz : ℚ) (events : PyVal) : Option ℚ :=
  if !pyTruthy events then some 0
  else
    match pyIter events with
    | Option.none => Option.none
    | some xs =>
      if xs.length < 2 then some 0
      else facPairSum (sortTimeline tz xs)

/-! ### Shipment summarizer (source lines 205–300) -/

/-- Embedding of `extract_address` (source lines 47–59), without the prefix
bookkeeping: the (city, state, pincode) triple. -/
def extract_address (address_data : PyVal) : PyVal × PyVal × PyVal :=
  if !pyTruthy address_data || !address_data.isDict then (.none, .none, .none)
  else
    (get_nested_value address_data ["city"] .none,
     get_nested_value address_data ["stateOrProvinceCode"] .none,
     get_nested_value address_data ["postalCode"] .none)

/-- The `datesOrTimes` fallback scan (source lines 239–251): parse the
`dateOrTimestamp` of the first entry whose `type` matches, if any. -/
def scanDateOrTime (tz : ℚ) (dts : List PyVal) (ty : String) : Option PyDateTime :=
  match dts.find? (fun dt => pyEqStr (get_nested_value dt ["type"] (.str "")) ty) with
  | some dt => parse_timestamp tz (get_nested_value dt ["dateOrTimestamp"] .none)
  | Option.none => Option.none

/-- The `avg_hours_per_facility` computation (source lines 263–266); note
the Python truthiness test on the float `total_transit_hours`. -/
def computeAvg (total : Option ℚ) (fac : ℕ) : Option ℚ :=
  match total with
  | some t => if t ≠ 0 ∧ 0 < fac then some (t / (fac : ℚ)) else Option.none
  | Option.none => Option.none

/-- The flat output record built by `process_shipment` (source lines 276–300). -/
structure ShipmentMetrics where
  tracking_number : PyVal
  service_type : PyVal
  carrier_code : PyVal
  package_weight_kg : PyVal
  packaging_type : PyVal
  origin_city : PyVal
  origin_state : PyVal
  origin_pincode : PyVal
  destination_city : PyVal
  destination_state : PyVal
  destination_pincode : PyVal
  pickup_datetime_ist : Option String
  delivery_datetime_ist : Option String
  total_transit_hours : Option ℚ
  num_facilities_visited : ℕ
  num_in_transit_events : ℕ
  time_in_inter_facility_transit_hours : ℚ
  avg_hours_per_facility : Option ℚ
  is_express_service : Bool
  delivery_location_type : PyVal
  num_out_for_delivery_attempts : ℕ
  first_attempt_delivery : Bool
  total_events_count : ℕ

/-- Assembly of the output record from the computed intermediates (source
lines 256–300). -/
def mkMetrics (shipment : PyVal) (pickup delivery : Option PyDateTime)
    (total : Option ℚ) (fac transit : ℕ) (ftime : ℚ) (attempts totalEvents : ℕ) :
    ShipmentMetrics :=
  let origin := extract_address (get_nested_value shipment ["shipperAddress"] (.dict []))
  let dest := extract_address (get_nested_value shipment ["destinationAddress"] (.dict []))
  { tracking_number := get_nested_value shipment ["trackingNumber"] .none
    service_type := get_nested_value shipment ["service", "type"] .none
    carrier_code := get_nested_value shipment ["carrierCode"] .none
    package_weight_kg := get_nested_value shipment ["packageWeight", "value"] .none
    packaging_type := get_nested_value shipment ["packaging", "type"] .none
    origin_city := origin.1
    origin_state := origin.2.1
    origin_pincode := origin.2.2
    destination_city := dest.1
    destination_state := dest.2.1
    destination_pincode := dest.2.2
    pickup_datetime_ist := pickup.map formatDateTime
    delivery_datetime_ist := delivery.map formatDateTime
    total_transit_hours := total
    num_facilities_visited := fac
    num_in_transit_events := transit
    time_in_inter_facility_transit_hours := ftime
    avg_hours_per_facility := computeAvg total fac
    is_express_service := is_express_service (get_nested_value shipment ["service", "type"] .none)
    delivery_location_type := get_nested_value shipment ["deliveryLocationType"] .none
    num_out_for_delivery_attempts := attempts
    first_attempt_delivery := attempts == 1
    total_events_count := totalEvents }

/-- The pickup/delivery time of a located event (source lines 231–237):
`if pickup_event: pickup_time = parse_timestamp(...)`. -/
def firstEventTime (tz : ℚ) (fe : Option PyVal) : Option PyDateTime :=
  match fe with
  | some e =>
    if pyTruthy e then parse_timestamp tz (get_nested_value e ["timestamp"] .none)
    else Option.none
  | Option.none => Option.none

/-- The `if not pickup_time:` fallback (source lines 239–251): keep a found
time, otherwise scan `datesOrTimes` (raising if it is truthy non-iterable). -/
def fallbackTime (tz : ℚ) (shipment : PyVal) (found : Option PyDateTime) (ty : String) :
    Option (Option PyDateTime) :=
  match found with
  | some dt => some (some dt)
  | Option.none =>
    (pyIter (get_nested_value shipment ["datesOrTimes"] (.list []))).map
      (fun dts => scanDateOrTime tz dts ty)

/-- The total transit computation (source lines 253–254), in hours; the
subtraction raises for a naive/aware mix. -/
def totalHours (pickup delivery : Option PyDateTime) : Option (Option ℚ) :=
  match pickup, delivery with
  | some p, some d => (pySubDt d p).map (fun secs => some (secs / 3600))
  | _, _ => some Option.none

/-- The `len(events) if events else 0` computation (source line 274). -/
def totalEventsLen (events : PyVal) : Option ℕ :=
  if !pyTruthy events then some 0 else (pyIter events).map List.length

/-- Embedding of `process_shipment` (source lines 205–300).  The outer
`Option` is the exception layer (`Option.none` = the call raises, to be
caught by `load_data`); the inner `Option` is the `None`-result for a
falsy or non-mapping shipment (source lines 206–207). -/
def process_shipment (tz : ℚ) (shipment : PyVal) : Option (Option ShipmentMetrics) :=
  if !pyTruthy shipment || !shipment.isDict then some Option.none
  else
    let events := get_nested_value shipment ["events"] (.list [])
    (find_pickup_event events).bind fun pe =>
    (find_delivery_event events).bind fun de =>
    (fallbackTime tz shipment (firstEventTime tz pe) "ACTUAL_PICKUP").bind fun pickup =>
    (fallbackTime tz shipment (firstEventTime tz de) "ACTUAL_DELIVERY").bind fun delivery =>
    (totalHours pickup delivery).bind fun total =>
    (count_unique_facilities events).bind fun fac =>
    (count_transit_events events).bind fun transit =>
    (calculate_facility_transit_time tz events).bind fun ftime =>
    (count_delivery_attempts events).bind fun attempts =>
    (totalEventsLen events).bind fun totalEvents =>
    some (some (mkMetrics shipment pickup delivery total fac transit ftime attempts totalEvents))

/-- Embedding of the per-shipment loop of `load_data` (source lines
328–336): the produced records in input order, and the number of
"Failed to process shipment" warnings printed.  A raising shipment is
caught, warned about and skipped; a `None` result is skipped silently
(`if result:` merely fails, source line 332, with no warning). -/
def processBatch (tz : ℚ) : List PyVal → List ShipmentMetrics × ℕ
  | [] => ([], 0)
  | r :: rs =>
    let rest := processBatch tz rs
    match process_shipment tz r with
    | Option.none => (rest.1, rest.2 + 1)
    | some Option.none => rest
    | some (some m) => (m :: rest.1, rest.2)

/-! ### Spec-side definitions used to state the claims -/

/-- Plain partial lookup along a key path: `some v` exactly when every
segment exists and traversal stays inside mappings.  Stated from the spec's
words (§4.2) to characterise `get_nested_value`. -/
def pathLookup : PyVal → List String → Option PyVal
  | v, [] => some v
  | .dict es, k :: ks =>
    match lookupKey es k with
    | some v => pathLookup v ks
    | Option.none => Option.none
  | _, _ :: _ => Option.none

/-- Spec-side facility-arrival test (§4.3): `arrivalLocation` is a non-empty
string containing `"FACILITY"` case-insensitively. -/
def specIsFac (e : PyVal) : Bool :=
  match facilityLocRaw e with
  | .str s => s != "" && strContainsSub (strUpper s) "FACILITY"
  | _ => false

/-- Spec-side contribution of a consecutive timeline pair (§4.5): the
duration in hours when both events are facility arrivals with different
FacilityKeys and the duration is positive, else zero. -/
def specPairHours (x y : ℚ × PyVal) : ℚ :=
  if specIsFac x.2 && specIsFac y.2 && (facKey x.2 != facKey y.2) && decide (0 < (y.1 - x.1) / 3600)
  then (y.1 - x.1) / 3600 else 0

/-- Spec-side accumulated sum over consecutive pairs of a timeline. -/
def pairSumSpec (tl : List (ℚ × PyVal)) : ℚ :=
  (List.zipWith specPairHours tl tl.tail).sum

/-- Well-formedness of an event for the accumulator: its `arrivalLocation`
is a string or falsy, so line 162 of the source cannot raise. -/
def locOk (e : PyVal) : Prop := isFacLoc (facilityLocRaw e) ≠ Option.none

/-! ### Concrete inputs used by witnesses and counterexamples -/

/-- A facility-arrival event at facility A with millisecond timestamp `t`. -/
def evA (t : ℤ) : PyVal :=
  .dict [("timestamp", .int t),
         ("arrivalLocation", .str "FEDEX_FACILITY"),
         ("address", .dict [("city", .str "A"), ("postalCode", .str "1")])]

/-- A facility-arrival event at facility B with millisecond timestamp `t`. -/
def evB (t : ℤ) : PyVal :=
  .dict [("timestamp", .int t),
         ("arrivalLocation", .str "FEDEX_FACILITY"),
         ("address", .dict [("city", .str "B"), ("postalCode", .str "2")])]

/-- Distinct field triples, identical underscore-joined key (location
`"FACILITY_A"` with city `"B"`). -/
def exG1 : PyVal :=
  .dict [("timestamp", .int 0), ("arrivalLocation", .str "FACILITY_A"),
         ("address", .dict [("city", .str "B")])]

/-- Distinct field triples, identical underscore-joined key (location
`"FACILITY"` with city `"A_B"`). -/
def exG2 : PyVal :=
  .dict [("timestamp", .int 3600000), ("arrivalLocation", .str "FACILITY"),
         ("address", .dict [("city", .str "A_B")])]

/-- A minimal well-formed shipment. -/
def goodShip : PyVal := .dict [("trackingNumber", .str "T1")]

/-- A shipment with one out-for-delivery event. -/
def odShip : PyVal :=
  .dict [("trackingNumber", .str "T4"),
         ("events", .list [.dict [("eventType", .str "OD"), ("timestamp", .int 0)]])]

/-- A shipment whose pickup and delivery instants coincide and which visits
one facility: its total transit duration is a known 0.0 hours. -/
def cx4Ship : PyVal :=
  .dict [("trackingNumber", .str "T2"),
         ("events", .list
           [.dict [("eventType", .str "PU"), ("timestamp", .int 0)],
            .dict [("eventType", .str "DL"), ("timestamp", .int 0)],
            evA 0])]

/-- A shipment with an empty event list but an `ACTUAL_PICKUP` milestone in
`datesOrTimes`. -/
def cx7Ship : PyVal :=
  .dict [("trackingNumber", .str "T3"), ("events", .list []),
         ("datesOrTimes", .list
           [.dict [("type", .str "ACTUAL_PICKUP"), ("dateOrTimestamp", .int 0)]])]

/-- A shipment with an empty event list and no usable milestones. -/
def emptyEvShip : PyVal := .dict [("trackingNumber", .str "T5"), ("events", .list [])]

/-- A shipment with a 1-hour pickup-to-delivery span and one facility. -/
def posShip : PyVal :=
  .dict [("trackingNumber", .str "T6"),
         ("events", .list
           [.dict [("eventType", .str "PU"), ("timestamp", .int 0)],
            .dict [("eventType", .str "DL"), ("timestamp", .int 3600000),
                   ("arrivalLocation", .str "FEDEX_FACILITY"),
                   ("address", .dict [("city", .str "X"), ("postalCode", .str "9")])]])]

/-- Fallback record for `metricsOf`. -/
def emptyMetrics : ShipmentMetrics :=
  mkMetrics .none Option.none Option.none Option.none 0 0 0 0 0

/-- The record a successfully processed shipment yields. -/
def metricsOf (tz : ℚ) (s : PyVal) : ShipmentMetrics :=
  match process_shipment tz s with
  | some (some m) => m
  | _ => emptyMetrics

end Transit

namespace Transit

/-! ### Claim C8: `get_nested_value` characterisation -/

/-- Claim C8: `get_nested_value` never raises (it is a total function); it
returns the value found at the key path, and returns the default whenever a
path segment is absent, the traversal hits a non-mapping value before the
path is exhausted, or the value at the leaf is an explicit null. -/
theorem claim_C8_get_nested_value (data : PyVal) (keys : List String) (default : PyVal) :
    get_nested_value data keys default =
      match pathLookup data keys with
      | some PyVal.none => default
      | some v => v
      | Option.none => default := by
  induction keys generalizing data with
  | nil => cases data <;> rfl
  | cons k ks ih =>
    cases data <;> try rfl
    case dict es =>
      show (match lookupKey es k with
            | some v => get_nested_value v ks default
            | Option.none => default) = _
      cases h : lookupKey es k with
      | none => simp [pathLookup, h]
      | some v => simp only [pathLookup, h]; exact ih v

/-! ### Claim C1: the three timestamp encodings do not normalize to equal
instants -/

unseal Rat.add Rat.mul Rat.inv Rat.sub in
/-- Claim C1 (refuted; the code, not the claim, is at fault): at the single
instant epoch-0, the wrapped and bare millisecond encodings agree and yield
the offset-naive local datetime, but the ISO-8601 string `"...Z"` denoting
the same instant yields an offset-aware datetime, which is a different value
and compares unequal (`pyDtEq`) under Python `==` — for every local
timezone, shown here at `tz = 0`. -/
theorem claim_C1_normalizer_not_equal :
    parse_timestamp 0 (.dict [("$numberLong", .str "0")]) = parse_timestamp 0 (.int 0)
    ∧ parse_timestamp 0 (.int 0) = some (PyDateTime.naive 0)
    ∧ parse_timestamp 0 (.str "1970-01-01T00:00:00Z") = some (PyDateTime.aware 0 0)
    ∧ parse_timestamp 0 (.str "1970-01-01T00:00:00Z") ≠ parse_timestamp 0 (.int 0)
    ∧ pyDtEq (PyDateTime.aware 0 0) (PyDateTime.naive 0) = false := by
  exact ⟨rfl, rfl, rfl, by decide, rfl⟩

/-! ### Claim C10: FacilityKey construction is not injective -/

unseal Rat.add Rat.mul Rat.inv Rat.sub in
/-- Claim C10: the events `exG1` and `exG2` have different
(arrivalLocation, city, postalCode) field triples yet equal underscore-joined
FacilityKeys, so `count_unique_facilities` counts them as one facility and
`calculate_facility_transit_time` adds no inter-facility time between them. -/
theorem claim_C10_facility_key_collision :
    (pyStr (facilityLocRaw exG1) ≠ pyStr (facilityLocRaw exG2)
      ∧ pyStr (get_nested_value (get_nested_value exG1 ["address"] (.dict [])) ["city"] (.str ""))
          ≠ pyStr (get_nested_value (get_nested_value exG2 ["address"] (.dict [])) ["city"] (.str "")))
    ∧ facKey exG1 = facKey exG2
    ∧ count_unique_facilities (.list [exG1, exG2]) = some 1
    ∧ calculate_facility_transit_time 0 (.list [exG1, exG2]) = some 0 := by
  exact ⟨⟨by decide, by decide⟩, rfl, rfl, rfl⟩

/-! ### Claim C9: the accumulated transit time is never negative -/

theorem pairHours_nonneg (x y : ℚ × PyVal) (bx byv : Bool) : 0 ≤ pairHours x y bx byv := by
  unfold pairHours
  split
  · dsimp only
    split
    · exact le_of_lt (by assumption)
    · exact le_refl 0
  · exact le_refl 0

theorem facPairSum_cons_cons (x y : ℚ × PyVal) (rest : List (ℚ × PyVal)) :
    facPairSum (x :: y :: rest) =
      (isFacLoc (facilityLocRaw x.2)).bind fun bx =>
      (isFacLoc (facilityLocRaw y.2)).bind fun byv =>
      (facPairSum (y :: rest)).bind fun s =>
      some (pairHours x y bx byv + s) := rfl

theorem facPairSum_nonneg : ∀ (l : List (ℚ × PyVal)) (r : ℚ), facPairSum l = some r → 0 ≤ r := by
  intro l
  induction l with
  | nil =>
    intro r h
    simp only [facPairSum, Option.some.injEq] at h
    exact h ▸ le_refl 0
  | cons x xs ih =>
    intro r h
    cases xs with
    | nil =>
      simp only [facPairSum, Option.some.injEq] at h
      exact h ▸ le_refl 0
    | cons y rest =>
      rw [facPairSum_cons_cons] at h
      simp only [Option.bind_eq_some, Option.some.injEq] at h
      obtain ⟨bx, _, byv, _, s, hs, hr⟩ := h
      exact hr ▸ add_nonneg (pairHours_nonneg x y bx byv) (ih s hs)

/-- Claim C9: whenever `calculate_facility_transit_time` returns a value,
that value is non-negative, since only strictly positive pair durations are
added to the running total. -/
theorem claim_C9_transit_time_nonneg (tz : ℚ) (events : PyVal) (r : ℚ)
    (h : calculate_facility_transit_time tz events = some r) : 0 ≤ r := by
  unfold calculate_facility_transit_time at h
  split at h
  · simp only [Option.some.injEq] at h
    exact h ▸ le_refl 0
  · split at h
    · exact absurd h (by simp)
    · split at h
      · simp only [Option.some.injEq] at h
        exact h ▸ le_refl 0
      · exact facPairSum_nonneg _ r h

unseal Rat.add Rat.mul Rat.inv Rat.sub in
/-- Witness for C9 at a concrete three-event timeline whose value is 1 hour. -/
theorem claim_C9_witness :
    calculate_facility_transit_time 0 (.list [evA 0, evA 3600000, evB 7200000]) = some 1
    ∧ (0 : ℚ) ≤ 1 :=
  ⟨rfl, claim_C9_transit_time_nonneg 0 (.list [evA 0, evA 3600000, evB 7200000]) 1 rfl⟩

/-! ### Decomposition of a successful `process_shipment` run -/

theorem process_ok_decompose (tz : ℚ) (s : PyVal) (m : ShipmentMetrics)
    (h : process_shipment tz s = some (some m)) :
    ∃ pe de pickup delivery total fac transit ftime attempts totalEvents,
      find_pickup_event (get_nested_value s ["events"] (.list [])) = some pe ∧
      find_delivery_event (get_nested_value s ["events"] (.list [])) = some de ∧
      fallbackTime tz s (firstEventTime tz pe) "ACTUAL_PICKUP" = some pickup ∧
      fallbackTime tz s (firstEventTime tz de) "ACTUAL_DELIVERY" = some delivery ∧
      totalHours pickup delivery = some total ∧
      count_unique_facilities (get_nested_value s ["events"] (.list [])) = some fac ∧
      count_transit_events (get_nested_value s ["events"] (.list [])) = some transit ∧
      calculate_facility_transit_time tz (get_nested_value s ["events"] (.list [])) = some ftime ∧
      count_delivery_attempts (get_nested_value s ["events"] (.list [])) = some attempts ∧
      totalEventsLen (get_nested_value s ["events"] (.list [])) = some totalEvents ∧
      m = mkMetrics s pickup delivery total fac transit ftime attempts totalEvents := by
  unfold process_shipment at h
  split at h
  · exact absurd h (by simp)
  · simp only [Option.bind_eq_some, Option.some.injEq] at h
    obtain ⟨pe, hpe, de, hde, pickup, hpk, delivery, hdl, total, ht, fac, hf,
      transit, htr, ftime, hft, attempts, hat, tev, htev, hm⟩ := h
    exact ⟨pe, de, pickup, delivery, total, fac, transit, ftime, attempts, tev,
      hpe, hde, hpk, hdl, ht, hf, htr, hft, hat, htev, hm.symm⟩

theorem mkMetrics_avg (s : PyVal) (p d : Option PyDateTime) (total : Option ℚ)
    (fac transit : ℕ) (ftime : ℚ) (att tev : ℕ) :
    (mkMetrics s p d total fac transit ftime att tev).avg_hours_per_facility
      = computeAvg total fac := rfl

theorem mkMetrics_total (s : PyVal) (p d : Option PyDateTime) (total : Option ℚ)
    (fac transit : ℕ) (ftime : ℚ) (att tev : ℕ) :
    (mkMetrics s p d total fac transit ftime att tev).total_transit_hours = total := rfl

theorem mkMetrics_fac (s : PyVal) (p d : Option PyDateTime) (total : Option ℚ)
    (fac transit : ℕ) (ftime : ℚ) (att tev : ℕ) :
    (mkMetrics s p d total fac transit ftime att tev).num_facilities_visited = fac := rfl

theorem mkMetrics_transit (s : PyVal) (p d : Option PyDateTime) (total : Option ℚ)
    (fac transit : ℕ) (ftime : ℚ) (att tev : ℕ) :
    (mkMetrics s p d total fac transit ftime att tev).num_in_transit_events = transit := rfl

theorem mkMetrics_ftime (s : PyVal) (p d : Option PyDateTime) (total : Option ℚ)
    (fac transit : ℕ) (ftime : ℚ) (att tev : ℕ) :
    (mkMetrics s p d total fac transit ftime att tev).time_in_inter_facility_transit_hours
      = ftime := rfl

theorem mkMetrics_attempts (s : PyVal) (p d : Option PyDateTime) (total : Option ℚ)
    (fac transit : ℕ) (ftime : ℚ) (att tev : ℕ) :
    (mkMetrics s p d total fac transit ftime att tev).num_out_for_delivery_attempts
      = att := rfl

theorem mkMetrics_first (s : PyVal) (p d : Option PyDateTime) (total : Option ℚ)
    (fac transit : ℕ) (ftime : ℚ) (att tev : ℕ) :
    (mkMetrics s p d total fac transit ftime att tev).first_attempt_delivery
      = (att == 1) := rfl

theorem mkMetrics_tev (s : PyVal) (p d : Option PyDateTime) (total : Option ℚ)
    (fac transit : ℕ) (ftime : ℚ) (att tev : ℕ) :
    (mkMetrics s p d total fac transit ftime att tev).total_events_count = tev := rfl

theorem mkMetrics_pickup (s : PyVal) (p d : Option PyDateTime) (total : Option ℚ)
    (fac transit : ℕ) (ftime : ℚ) (att tev : ℕ) :
    (mkMetrics s p d total fac transit ftime att tev).pickup_datetime_ist
      = p.map formatDateTime := rfl

theorem mkMetrics_delivery (s : PyVal) (p d : Option PyDateTime) (total : Option ℚ)
    (fac transit : ℕ) (ftime : ℚ) (att tev : ℕ) :
    (mkMetrics s p d total fac transit ftime att tev).delivery_datetime_ist
      = d.map formatDateTime := rfl

/-! ### Claim C4: presence of `avg_hours_per_facility` -/

/-- Claim C4 (amended): for every successfully processed shipment,
`avg_hours_per_facility` is present exactly when the total transit duration
is known AND NON-ZERO (the source tests the float's truthiness, so a known
total of exactly 0.0 hours also yields absence) and the facility count is
positive; when present it equals total divided by facility count. -/
theorem claim_C4_avg_presence (tz : ℚ) (s : PyVal) (m : ShipmentMetrics)
    (h : process_shipment tz s = some (some m)) :
    (m.avg_hours_per_facility ≠ Option.none ↔
      (m.total_transit_hours ≠ Option.none ∧ m.total_transit_hours ≠ some 0
        ∧ 0 < m.num_facilities_visited))
    ∧ ∀ q, m.avg_hours_per_facility = some q →
        ∃ t, m.total_transit_hours = some t ∧ q = t / (m.num_facilities_visited : ℚ) := by
  obtain ⟨pe, de, pickup, delivery, total, fac, transit, ftime, attempts, tev,
    _, _, _, _, _, _, _, _, _, _, hm⟩ := process_ok_decompose tz s m h
  subst hm
  rw [mkMetrics_avg, mkMetrics_total, mkMetrics_fac]
  constructor
  · cases total with
    | none => simp [computeAvg]
    | some t =>
      by_cases h0 : t = 0
      · subst h0; simp [computeAvg]
      · by_cases hfc : 0 < fac
        · simp [computeAvg, h0, hfc]
        · simp [computeAvg, h0, hfc]
  · intro q hq
    cases total with
    | none => exact absurd hq (by simp [computeAvg])
    | some t =>
      simp only [computeAvg] at hq
      split at hq
      · simp only [Option.some.injEq] at hq
        exact ⟨t, rfl, hq.symm⟩
      · exact absurd hq (by simp)

unseal Rat.add Rat.mul Rat.inv Rat.sub in
/-- Counterexample to C4 as stated: in `cx4Ship` the total transit duration
is known (0.0 hours: pickup and delivery coincide) and one facility was
visited, yet `avg_hours_per_facility` is absent, where the claim requires it
to be present (with value 0). -/
theorem claim_C4_cx :
    (process_shipment 0 cx4Ship).map (Option.map (fun m =>
        (m.total_transit_hours, m.num_facilities_visited, m.avg_hours_per_facility)))
      = some (some (some 0, 1, Option.none))
    ∧ some (0 : ℚ) ≠ Option.none ∧ 0 < 1 := by
  exact ⟨rfl, by decide, by decide⟩

unseal Rat.add Rat.mul Rat.inv Rat.sub in
/-- Witness for the amended C4 at `posShip`. -/
theorem claim_C4_witness :
    process_shipment 0 posShip = some (some (metricsOf 0 posShip))
    ∧ (metricsOf 0 posShip).avg_hours_per_facility ≠ Option.none := by
  refine ⟨rfl, ?_⟩
  exact ((claim_C4_avg_presence 0 posShip (metricsOf 0 posShip) rfl).1).mpr
    ⟨by decide, by decide, by decide⟩

/-! ### Claim C5: `first_attempt_delivery` iff exactly one OD event -/

/-- Claim C5: for every successfully processed shipment,
`first_attempt_delivery` is true iff the count of out-for-delivery events
(type code `"OD"`, or description containing `"vehicle"` or
`"out for delivery"` case-insensitively) equals exactly 1. -/
theorem claim_C5_first_attempt (tz : ℚ) (s : PyVal) (m : ShipmentMetrics)
    (h : process_shipment tz s = some (some m)) :
    ∃ n, count_delivery_attempts (get_nested_value s ["events"] (.list [])) = some n
      ∧ m.num_out_for_delivery_attempts = n
      ∧ (m.first_attempt_delivery = true ↔ n = 1) := by
  obtain ⟨pe, de, pickup, delivery, total, fac, transit, ftime, attempts, tev,
    _, _, _, _, _, _, _, _, hat, _, hm⟩ := process_ok_decompose tz s m h
  subst hm
  exact ⟨attempts, hat, mkMetrics_attempts _ _ _ _ _ _ _ _ _,
    by rw [mkMetrics_first]; exact beq_iff_eq⟩

unseal Rat.add Rat.mul Rat.inv Rat.sub in
/-- Witness for C5 at a shipment with exactly one out-for-delivery event. -/
theorem claim_C5_witness :
    process_shipment 0 odShip = some (some (metricsOf 0 odShip))
    ∧ (metricsOf 0 odShip).first_attempt_delivery = true := by
  refine ⟨rfl, ?_⟩
  obtain ⟨n, hc, _, hiff⟩ := claim_C5_first_attempt 0 odShip (metricsOf 0 odShip) rfl
  have hn1 : n = 1 := by
    have h1 : count_delivery_attempts (get_nested_value odShip ["events"] (.list []))
        = some 1 := rfl
    rw [h1] at hc
    exact ((Option.some.injEq 1 n).mp hc).symm
  exact hiff.mpr hn1

/-! ### Claim C7: shipments with an empty event list -/

/-- Claim C7 (amended): for every successfully processed shipment whose
events list is empty AND whose `datesOrTimes` milestones yield no
`ACTUAL_PICKUP`/`ACTUAL_DELIVERY` time (the source's fallback, which the
original claim overlooks), every count is 0 and every time-derived field is
absent. -/
theorem claim_C7_zero_events (tz : ℚ) (s : PyVal) (m : ShipmentMetrics)
    (h : process_shipment tz s = some (some m))
    (hev : get_nested_value s ["events"] (.list []) = .list [])
    (hdts : ∀ dts, pyIter (get_nested_value s ["datesOrTimes"] (.list [])) = some dts →
      scanDateOrTime tz dts "ACTUAL_PICKUP" = Option.none
      ∧ scanDateOrTime tz dts "ACTUAL_DELIVERY" = Option.none) :
    m.num_facilities_visited = 0 ∧ m.num_in_transit_events = 0
    ∧ m.num_out_for_delivery_attempts = 0 ∧ m.total_events_count = 0
    ∧ m.time_in_inter_facility_transit_hours = 0
    ∧ m.pickup_datetime_ist = Option.none ∧ m.delivery_datetime_ist = Option.none
    ∧ m.total_transit_hours = Option.none ∧ m.avg_hours_per_facility = Option.none := by
  obtain ⟨pe, de, pickup, delivery, total, fac, transit, ftime, attempts, tev,
    hpe, hde, hpk, hdl, ht, hf, htr, hft, hat, htev, hm⟩ := process_ok_decompose tz s m h
  rw [hev] at hpe hde hf htr hft hat htev
  have hpe0 : pe = Option.none := by
    rw [show find_pickup_event (PyVal.list []) = some Option.none from rfl] at hpe
    exact ((Option.some.injEq _ _).mp hpe).symm
  have hde0 : de = Option.none := by
    rw [show find_delivery_event (PyVal.list []) = some Option.none from rfl] at hde
    exact ((Option.some.injEq _ _).mp hde).symm
  subst hpe0; subst hde0
  rw [show firstEventTime tz Option.none = Option.none from rfl] at hpk hdl
  simp only [fallbackTime, Option.map_eq_some'] at hpk hdl
  obtain ⟨dtsP, hdtsP, hscanP⟩ := hpk
  obtain ⟨dtsD, hdtsD, hscanD⟩ := hdl
  have hp0 : pickup = Option.none := by rw [← hscanP]; exact (hdts dtsP hdtsP).1
  have hd0 : delivery = Option.none := by rw [← hscanD]; exact (hdts dtsD hdtsD).2
  subst hp0; subst hd0
  have ht0 : total = Option.none := by
    rw [show totalHours Option.none Option.none = some Option.none from rfl] at ht
    exact ((Option.some.injEq _ _).mp ht).symm
  have hf0 : fac = 0 := by
    rw [show count_unique_facilities (PyVal.list []) = some 0 from rfl] at hf
    exact ((Option.some.injEq _ _).mp hf).symm
  have htr0 : transit = 0 := by
    rw [show count_transit_events (PyVal.list []) = some 0 from rfl] at htr
    exact ((Option.some.injEq _ _).mp htr).symm
  have hft0 : ftime = 0 := by
    rw [show calculate_facility_transit_time tz (PyVal.list []) = some 0 from rfl] at hft
    exact ((Option.some.injEq _ _).mp hft).symm
  have hat0 : attempts = 0 := by
    rw [show count_delivery_attempts (PyVal.list []) = some 0 from rfl] at hat
    exact ((Option.some.injEq _ _).mp hat).symm
  have htev0 : tev = 0 := by
    rw [show totalEventsLen (PyVal.list []) = some 0 from rfl] at htev
    exact ((Option.some.injEq _ _).mp htev).symm
  subst ht0; subst hf0; subst htr0; subst hft0; subst hat0; subst htev0; subst hm
  exact ⟨rfl, rfl, rfl, rfl, rfl, rfl, rfl, rfl, rfl⟩

unseal Rat.add Rat.mul Rat.inv Rat.sub in
/-- Counterexample to C7 as stated: `cx7Ship` has an empty events list
(total event count 0), yet its pickup instant is present, supplied by the
`datesOrTimes` fallback. -/
theorem claim_C7_cx :
    get_nested_value cx7Ship ["events"] (.list []) = .list []
    ∧ (process_shipment 0 cx7Ship).map (Option.map (fun m =>
        (m.total_events_count, m.pickup_datetime_ist)))
      = some (some (0, some "1970-01-01 00:00:00")) := by
  exact ⟨rfl, rfl⟩

unseal Rat.add Rat.mul Rat.inv Rat.sub in
/-- Witness for the amended C7 at a shipment with no events and no
milestones. -/
theorem claim_C7_witness :
    process_shipment 0 emptyEvShip = some (some (metricsOf 0 emptyEvShip))
    ∧ (metricsOf 0 emptyEvShip).pickup_datetime_ist = Option.none
    ∧ (metricsOf 0 emptyEvShip).total_events_count = 0
    ∧ (metricsOf 0 emptyEvShip).total_transit_hours = Option.none := by
  refine ⟨rfl, ?_, ?_, ?_⟩ <;>
  · have hc := claim_C7_zero_events 0 emptyEvShip (metricsOf 0 emptyEvShip) rfl rfl
      (fun dts hd => by
        injection (show some ([] : List PyVal) = some dts from hd) with h2
        exact h2 ▸ ⟨rfl, rfl⟩)
    tauto

/-! ### Claim C6: batch behaviour around a malformed shipment -/

theorem process_malformed (tz : ℚ) (bad : PyVal)
    (hbad : bad = PyVal.none ∨ bad.isDict = false) :
    process_shipment tz bad = some Option.none := by
  unfold process_shipment
  rcases hbad with rfl | hb
  · rfl
  · have hc : (!pyTruthy bad || !bad.isDict) = true := by rw [hb]; simp
    simp only [hc, if_true]

theorem processBatch_all_ok (tz : ℚ) (rs : List PyVal) :
    (∀ r ∈ rs, ∃ m, process_shipment tz r = some (some m)) →
    (processBatch tz rs).1.length = rs.length ∧ (processBatch tz rs).2 = 0 := by
  induction rs with
  | nil => intro _; exact ⟨rfl, rfl⟩
  | cons r rs ih =>
    intro h
    obtain ⟨m, hm⟩ := h r (List.mem_cons_self r rs)
    have hrest := ih (fun x hx => h x (List.mem_cons_of_mem r hx))
    simp only [processBatch, hm, List.length_cons]
    exact ⟨by rw [hrest.1], hrest.2⟩

/-- Claim C6 (amended): a malformed entry (null or not a mapping) in a batch
whose other entries all process successfully does not abort the batch and
exactly N-1 output records are produced — but NO warning is logged for the
malformed entry (the source's `process_shipment` returns `None` without
raising, and `load_data` warns only on exceptions). -/
theorem claim_C6_partial_failure (tz : ℚ) (pre : List PyVal) (bad : PyVal)
    (post : List PyVal) (hbad : bad = PyVal.none ∨ bad.isDict = false)
    (hok : ∀ r ∈ pre ++ post, ∃ m, process_shipment tz r = some (some m)) :
    (processBatch tz (pre ++ bad :: post)).1.length = (pre ++ bad :: post).length - 1
    ∧ (processBatch tz (pre ++ bad :: post)).2 = 0 := by
  induction pre with
  | nil =>
    simp only [List.nil_append] at hok ⊢
    have hb := process_malformed tz bad hbad
    have hrest := processBatch_all_ok tz post hok
    simp only [processBatch, hb, List.length_cons]
    exact ⟨by rw [hrest.1]; omega, hrest.2⟩
  | cons r pre ih =>
    obtain ⟨m, hm⟩ := hok r (by simp)
    have ih2 := ih (fun x hx => hok x (by
      simp only [List.mem_append, List.mem_cons] at hx ⊢
      tauto))
    simp only [List.cons_append, processBatch, hm, List.length_cons, List.append_eq]
    refine ⟨?_, ih2.2⟩
    rw [ih2.1]
    have : 0 < (pre ++ bad :: post).length := by simp
    omega

unseal Rat.add Rat.mul Rat.inv Rat.sub in
/-- Counterexample to C6 as stated: the batch `[null, goodShip]` produces
N-1 = 1 output record, but zero warnings are logged, not one. -/
theorem claim_C6_cx :
    (processBatch 0 [PyVal.none, goodShip]).1.length = 1
    ∧ (processBatch 0 [PyVal.none, goodShip]).2 ≠ 1 := by
  exact ⟨rfl, by decide⟩

unseal Rat.add Rat.mul Rat.inv Rat.sub in
/-- Witness for the amended C6 on the concrete batch `[null, goodShip]`. -/
theorem claim_C6_witness :
    (processBatch 0 ([] ++ PyVal.none :: [goodShip])).1.length
      = ([] ++ PyVal.none :: [goodShip]).length - 1
    ∧ (processBatch 0 ([] ++ PyVal.none :: [goodShip])).2 = 0 :=
  claim_C6_partial_failure 0 [] PyVal.none [goodShip] (Or.inl rfl)
    (fun r hr => by
      have : r = goodShip := by
        simp only [List.nil_append, List.mem_singleton] at hr
        exact hr
      exact this ▸ ⟨metricsOf 0 goodShip, rfl⟩)

/-! ### Claim C3: collision handling in the timeline builder -/

theorem slotAux_spec (b : ℚ) (seen : List ℚ) :
    ∀ (fuel k : ℕ), (∃ j, j < fuel ∧ b + ((k + j : ℕ) : ℚ) / 1000 ∉ seen) →
      b + (slotAux b seen fuel k : ℚ) / 1000 ∉ seen
      ∧ k ≤ slotAux b seen fuel k
      ∧ ∀ i, k ≤ i → i < slotAux b seen fuel k → b + (i : ℚ) / 1000 ∈ seen := by
  intro fuel
  induction fuel with
  | zero =>
    rintro k ⟨j, hj, _⟩
    exact absurd hj (Nat.not_lt_zero j)
  | succ fuel ih =>
    intro k hex
    have heq : slotAux b seen (fuel + 1) k
        = if b + (k : ℚ) / 1000 ∈ seen then slotAux b seen fuel (k + 1) else k := rfl
    by_cases hmem : b + (k : ℚ) / 1000 ∈ seen
    · rw [heq, if_pos hmem]
      have hex2 : ∃ j, j < fuel ∧ b + (((k + 1) + j : ℕ) : ℚ) / 1000 ∉ seen := by
        obtain ⟨j, hj, hfree⟩ := hex
        cases j with
        | zero => rw [Nat.add_zero] at hfree; exact absurd hmem hfree
        | succ j2 =>
          refine ⟨j2, by omega, ?_⟩
          have harr : k + 1 + j2 = k + (j2 + 1) := by omega
          rw [harr]
          exact hfree
      obtain ⟨h1, h2, h3⟩ := ih (k + 1) hex2
      refine ⟨h1, by omega, ?_⟩
      intro i hki hilt
      rcases Nat.eq_or_lt_of_le hki with heqk | hlt
      · rw [← heqk]; exact hmem
      · exact h3 i hlt hilt
    · rw [heq, if_neg hmem]
      exact ⟨hmem, le_refl k, fun i h1 h2 => absurd (lt_of_le_of_lt h1 h2) (lt_irrefl k)⟩

theorem exists_slot_free (seen : List ℚ) (b : ℚ) :
    ∃ j, j < seen.length + 1 ∧ b + (j : ℚ) / 1000 ∉ seen := by
  by_contra hcon
  push_neg at hcon
  have hinj : Function.Injective (fun j : ℕ => b + (j : ℚ) / 1000) := by
    intro j1 j2 h
    simp only at h
    have h1 := add_left_cancel h
    have h2 : (j1 : ℚ) = j2 := by
      field_simp at h1
      exact_mod_cast h1
    exact_mod_cast h2
  have hsub : (Finset.range (seen.length + 1)).image (fun j : ℕ => b + (j : ℚ) / 1000)
      ⊆ seen.toFinset := by
    intro x hx
    simp only [Finset.mem_image, Finset.mem_range] at hx
    obtain ⟨j, hj, rfl⟩ := hx
    exact List.mem_toFinset.mpr (hcon j hj)
  have h1 : seen.length + 1 ≤ seen.toFinset.card := by
    calc seen.length + 1
        = ((Finset.range (seen.length + 1)).image (fun j : ℕ => b + (j : ℚ) / 1000)).card := by
          rw [Finset.card_image_of_injective _ hinj, Finset.card_range]
      _ ≤ seen.toFinset.card := Finset.card_le_card hsub
  have h2 : seen.toFinset.card ≤ seen.length := seen.toFinset_card_le
  omega

theorem slot_spec (seen : List ℚ) (b : ℚ) :
    b + (slotIdx seen b : ℚ) / 1000 ∉ seen
    ∧ ∀ i, i < slotIdx seen b → b + (i : ℚ) / 1000 ∈ seen := by
  obtain ⟨j, hj, hfree⟩ := exists_slot_free seen b
  have hex : ∃ j2, j2 < seen.length + 1 ∧ b + ((0 + j2 : ℕ) : ℚ) / 1000 ∉ seen :=
    ⟨j, hj, by simpa using hfree⟩
  obtain ⟨h1, _, h3⟩ := slotAux_spec b seen (seen.length + 1) 0 hex
  exact ⟨h1, fun i hi => h3 i (Nat.zero_le i) hi⟩

theorem slot_not_mem (seen : List ℚ) (b : ℚ) : slot seen b ∉ seen :=
  (slot_spec seen b).1

theorem slot_eq_of_not_mem {seen : List ℚ} {b : ℚ} (h : b ∉ seen) : slot seen b = b := by
  have h0 : slotIdx seen b = 0 := by
    by_contra hne
    have hmem := (slot_spec seen b).2 0 (Nat.pos_of_ne_zero hne)
    simp only [Nat.cast_zero, zero_div, add_zero] at hmem
    exact h hmem
  unfold slot
  rw [h0]
  simp

theorem slot_lt_slot {seen s2 : List ℚ} {b : ℚ} (hsub : ∀ q ∈ seen, q ∈ s2)
    (hmem : slot seen b ∈ s2) : slot seen b < slot s2 b := by
  have hne : slotIdx seen b ≠ slotIdx s2 b := by
    intro he
    apply slot_not_mem s2 b
    show b + (slotIdx s2 b : ℚ) / 1000 ∈ s2
    rw [← he]
    exact hmem
  have hlt : slotIdx seen b < slotIdx s2 b := by
    rcases Nat.lt_or_ge (slotIdx s2 b) (slotIdx seen b) with h | h
    · exfalso
      have hmem2 := (slot_spec seen b).2 (slotIdx s2 b) h
      exact slot_not_mem s2 b (hsub _ hmem2)
    · omega
  show b + (slotIdx seen b : ℚ) / 1000 < b + (slotIdx s2 b : ℚ) / 1000
  have hltq : (slotIdx seen b : ℚ) < (slotIdx s2 b : ℚ) := by exact_mod_cast hlt
  gcongr

theorem buildAux_map_snd (tz : ℚ) :
    ∀ (es : List PyVal) (seen : List ℚ),
      (buildAux tz seen es).map Prod.snd = es.filter (fun e => (eventBase tz e).isSome) := by
  intro es
  induction es with
  | nil => intro seen; rfl
  | cons e es ih =>
    intro seen
    cases heb : eventBase tz e with
    | none => simp [buildAux, heb, ih]
    | some bb => simp [buildAux, heb, ih]

theorem buildAux_not_mem (tz : ℚ) :
    ∀ (es : List PyVal) (seen : List ℚ) (x : ℚ × PyVal),
      x ∈ buildAux tz seen es → x.1 ∉ seen := by
  intro es
  induction es with
  | nil => intro seen x hx; exact absurd hx (List.not_mem_nil x)
  | cons e es ih =>
    intro seen x hx
    cases heb : eventBase tz e with
    | none =>
      simp only [buildAux, heb] at hx
      exact ih seen x hx
    | some bb =>
      simp only [buildAux, heb] at hx
      rcases List.mem_cons.mp hx with hx1 | hx2
      · rw [hx1]
        exact slot_not_mem seen bb
      · intro hmem
        exact ih (slot seen bb :: seen) x hx2 (List.mem_cons_of_mem _ hmem)

theorem buildAux_slot_form (tz : ℚ) :
    ∀ (es : List PyVal) (seen : List ℚ) (x : ℚ × PyVal),
      x ∈ buildAux tz seen es →
      ∃ s, (∀ q ∈ seen, q ∈ s) ∧ ∃ bb, eventBase tz x.2 = some bb ∧ x.1 = slot s bb := by
  intro es
  induction es with
  | nil => intro seen x hx; exact absurd hx (List.not_mem_nil x)
  | cons e es ih =>
    intro seen x hx
    cases heb : eventBase tz e with
    | none =>
      simp only [buildAux, heb] at hx
      exact ih seen x hx
    | some bb =>
      simp only [buildAux, heb] at hx
      rcases List.mem_cons.mp hx with hx1 | hx2
      · exact ⟨seen, fun q hq => hq, bb, by rw [hx1]; exact heb, by rw [hx1]⟩
      · obtain ⟨s, hsub, bb2, hbb2, hform⟩ := ih (slot seen bb :: seen) x hx2
        exact ⟨s, fun q hq => hsub q (List.mem_cons_of_mem _ hq), bb2, hbb2, hform⟩

theorem buildAux_pairwise_class (tz : ℚ) :
    ∀ (es : List PyVal) (seen : List ℚ),
      (buildAux tz seen es).Pairwise
        (fun x y => eventBase tz x.2 = eventBase tz y.2 → x.1 < y.1) := by
  intro es
  induction es with
  | nil => intro seen; exact List.Pairwise.nil
  | cons e es ih =>
    intro seen
    cases heb : eventBase tz e with
    | none =>
      simp only [buildAux, heb]
      exact ih seen
    | some bb =>
      simp only [buildAux, heb]
      refine List.Pairwise.cons ?_ (ih (slot seen bb :: seen))
      intro y hy heq
      obtain ⟨s, hsub, bb2, hbb2, hform⟩ :=
        buildAux_slot_form tz es (slot seen bb :: seen) y hy
      simp only at heq
      rw [heb, hbb2] at heq
      injection heq with heq2
      rw [hform, ← heq2]
      exact slot_lt_slot (fun q hq => hsub q (List.mem_cons_of_mem _ hq))
        (hsub _ (List.mem_cons_self _ _))

theorem buildAux_keys_ne (tz : ℚ) :
    ∀ (es : List PyVal) (seen : List ℚ),
      (buildAux tz seen es).Pairwise (fun x y => x.1 ≠ y.1) := by
  intro es
  induction es with
  | nil => intro seen; exact List.Pairwise.nil
  | cons e es ih =>
    intro seen
    cases heb : eventBase tz e with
    | none =>
      simp only [buildAux, heb]
      exact ih seen
    | some bb =>
      simp only [buildAux, heb]
      refine List.Pairwise.cons ?_ (ih (slot seen bb :: seen))
      intro y hy
      have := buildAux_not_mem tz es (slot seen bb :: seen) y hy
      intro hk
      exact this (hk ▸ List.mem_cons_self _ _)

theorem sortTimeline_perm (tz : ℚ) (xs : List PyVal) :
    List.Perm (sortTimeline tz xs) (buildTimeline tz xs) :=
  List.perm_insertionSort entryLE (buildTimeline tz xs)

theorem sortTimeline_sorted (tz : ℚ) (xs : List PyVal) :
    (sortTimeline tz xs).Pairwise entryLE :=
  List.sorted_insertionSort entryLE (buildTimeline tz xs)

theorem sortTimeline_filter_class (tz : ℚ) (xs : List PyVal) (b : ℚ) :
    (sortTimeline tz xs).filter (fun x => decide (eventBase tz x.2 = some b))
      = (buildTimeline tz xs).filter (fun x => decide (eventBase tz x.2 = some b)) := by
  have hperm : List.Perm
      ((sortTimeline tz xs).filter (fun x => decide (eventBase tz x.2 = some b)))
      ((buildTimeline tz xs).filter (fun x => decide (eventBase tz x.2 = some b))) :=
    (sortTimeline_perm tz xs).filter _
  have hbuild : ((buildTimeline tz xs).filter
      (fun x => decide (eventBase tz x.2 = some b))).Pairwise entryLT := by
    rw [List.pairwise_filter]
    refine List.Pairwise.imp ?_ (buildAux_pairwise_class tz xs [])
    intro u v hR hpu hpv
    exact hR (hpu.trans hpv.symm)
  have hsort : ((sortTimeline tz xs).filter
      (fun x => decide (eventBase tz x.2 = some b))).Pairwise entryLT := by
    have hle := (sortTimeline_sorted tz xs).filter
      (fun x => decide (eventBase tz x.2 = some b))
    have hne : ((sortTimeline tz xs).filter
        (fun x => decide (eventBase tz x.2 = some b))).Pairwise (fun x y => x.1 ≠ y.1) := by
      have hnodupB : ((buildTimeline tz xs).map Prod.fst).Nodup :=
        List.pairwise_map.mpr (buildAux_keys_ne tz xs [])
      have hnodupS : ((sortTimeline tz xs).map Prod.fst).Nodup :=
        ((sortTimeline_perm tz xs).map Prod.fst).nodup_iff.mpr hnodupB
      exact (List.pairwise_map.mp hnodupS).filter _
    exact (hle.and hne).imp (fun h => lt_of_le_of_ne h.1 h.2)
  exact List.eq_of_perm_of_sorted hperm hsort hbuild

/-- Claim C3: all events whose timestamps parse are retained in the timeline
in input order (none dropped); within a class of events normalizing to the
same instant the adjusted instants strictly increase, each being the base
instant plus a whole number of milliseconds; and the subsequence of the
sorted timeline carrying any fixed base instant lists those events exactly
in their input order. -/
theorem claim_C3_collision_order (tz : ℚ) (xs : List PyVal) (b : ℚ) :
    (buildTimeline tz xs).map Prod.snd = xs.filter (fun e => (eventBase tz e).isSome)
    ∧ (buildTimeline tz xs).Pairwise
        (fun x y => eventBase tz x.2 = eventBase tz y.2 → x.1 < y.1)
    ∧ (∀ x ∈ buildTimeline tz xs,
        ∃ bb k, eventBase tz x.2 = some bb ∧ x.1 = bb + (k : ℚ) / 1000)
    ∧ ((sortTimeline tz xs).filter (fun x => decide (eventBase tz x.2 = some b))).map Prod.snd
        = xs.filter (fun e => decide (eventBase tz e = some b)) := by
  refine ⟨buildAux_map_snd tz xs [], buildAux_pairwise_class tz xs [], ?_, ?_⟩
  · intro x hx
    obtain ⟨s, _, bb, hbb, hform⟩ := buildAux_slot_form tz xs [] x hx
    exact ⟨bb, slotIdx s bb, hbb, hform⟩
  · rw [sortTimeline_filter_class tz xs b]
    have hcomm : ((buildTimeline tz xs).filter
          (fun x => decide (eventBase tz x.2 = some b))).map Prod.snd
        = ((buildTimeline tz xs).map Prod.snd).filter
          (fun e => decide (eventBase tz e = some b)) := by
      rw [List.filter_map]
      rfl
    have hms : (buildTimeline tz xs).map Prod.snd
        = xs.filter (fun e => (eventBase tz e).isSome) := buildAux_map_snd tz xs []
    rw [hcomm, hms, List.filter_filter]
    congr 1
    funext e
    cases heb : eventBase tz e with
    | none => simp [heb]
    | some bb => simp [heb]

unseal Rat.add Rat.mul Rat.inv Rat.sub in
/-- Witness for C3 at two same-instant events: both are retained and their
sorted order matches input order. -/
theorem claim_C3_witness :
    (buildTimeline 0 [evB 0, evA 0]).map Prod.snd = [evB 0, evA 0]
    ∧ ((sortTimeline 0 [evB 0, evA 0]).filter
        (fun x => decide (eventBase 0 x.2 = some 0))).map Prod.snd = [evB 0, evA 0] := by
  have h := claim_C3_collision_order 0 [evB 0, evA 0] 0
  refine ⟨?_, ?_⟩
  · rw [h.1]; rfl
  · rw [h.2.2.2]; rfl

/-! ### Claim C2: the facility transit sum -/

theorem isFacLoc_spec : ∀ {e : PyVal} {bv : Bool},
    isFacLoc (facilityLocRaw e) = some bv → bv = specIsFac e := by
  intro e bv h
  unfold isFacLoc at h
  unfold specIsFac
  cases hloc : facilityLocRaw e <;> rw [hloc] at h <;>
    simp only [pyTruthy] at h ⊢ <;>
    (split at h <;> simp_all)

theorem pairHours_eq_spec (x y : ℚ × PyVal) :
    pairHours x y (specIsFac x.2) (specIsFac y.2) = specPairHours x y := by
  unfold pairHours specPairHours
  cases hc : (specIsFac x.2 && specIsFac y.2 && (facKey x.2 != facKey y.2)) with
  | false => simp [hc]
  | true =>
    by_cases hpos : 0 < (y.1 - x.1) / 3600
    · simp [hc, hpos]
    · simp [hc, hpos]

theorem facPairSum_eq_spec : ∀ (tl : List (ℚ × PyVal)),
    (∀ x ∈ tl, locOk x.2) → facPairSum tl = some (pairSumSpec tl) := by
  intro tl
  induction tl with
  | nil => intro _; rfl
  | cons x xs ih =>
    intro hOk
    cases xs with
    | nil => rfl
    | cons y rest =>
      have hx : locOk x.2 := hOk x (List.mem_cons_self _ _)
      have hy : locOk y.2 := hOk y (List.mem_cons_of_mem _ (List.mem_cons_self _ _))
      obtain ⟨bx, hbx⟩ := Option.ne_none_iff_exists'.mp hx
      obtain ⟨byv, hbyv⟩ := Option.ne_none_iff_exists'.mp hy
      have ihres := ih (fun z hz => hOk z (List.mem_cons_of_mem _ hz))
      rw [facPairSum_cons_cons, hbx, hbyv, ihres]
      simp only [Option.some_bind]
      rw [isFacLoc_spec hbx, isFacLoc_spec hbyv, pairHours_eq_spec]
      rfl

theorem mem_sortTimeline_events {tz : ℚ} {xs : List PyVal} {x : ℚ × PyVal}
    (hx : x ∈ sortTimeline tz xs) : x.2 ∈ xs := by
  have hb : x ∈ buildTimeline tz xs := ((sortTimeline_perm tz xs).mem_iff).mp hx
  have hm : x.2 ∈ (buildTimeline tz xs).map Prod.snd := List.mem_map_of_mem Prod.snd hb
  have hms : (buildTimeline tz xs).map Prod.snd
      = xs.filter (fun e => (eventBase tz e).isSome) := buildAux_map_snd tz xs []
  rw [hms] at hm
  exact List.mem_of_mem_filter hm

theorem eventBase_evA (tz : ℚ) (t : ℤ) : eventBase tz (evA t) = some ((t : ℚ) / 1000) := by
  show some ((t : ℚ) / 1000 + tz - tz) = some ((t : ℚ) / 1000)
  rw [add_sub_cancel_right]

theorem eventBase_evB (tz : ℚ) (t : ℤ) : eventBase tz (evB t) = some ((t : ℚ) / 1000) := by
  show some ((t : ℚ) / 1000 + tz - tz) = some ((t : ℚ) / 1000)
  rw [add_sub_cancel_right]

/-- Claim C2: `calculate_facility_transit_time` returns, for event lists
whose `arrivalLocation` values cannot raise (strings or falsy), exactly the
sum over consecutive pairs of the sorted timeline of the positive durations
between pairs of facility-arrival events with different FacilityKeys, with
lists shorter than two events yielding zero; and on the concrete timeline
`[FacilityA@T1, FacilityA@T2, FacilityB@T3]` with `T1<T2<T3` (milliseconds)
the result is exactly `T3-T2`, in hours. -/
theorem claim_C2_facility_transit_sum :
    (∀ (tz : ℚ) (xs : List PyVal), (∀ e ∈ xs, locOk e) →
      calculate_facility_transit_time tz (.list xs)
        = some (if xs.length < 2 then 0 else pairSumSpec (sortTimeline tz xs)))
    ∧ (∀ (tz : ℚ) (t1 t2 t3 : ℤ), t1 < t2 → t2 < t3 →
        calculate_facility_transit_time tz (.list [evA t1, evA t2, evB t3])
          = some (((t3 : ℚ) - (t2 : ℚ)) / 1000 / 3600)) := by
  constructor
  · intro tz xs hOk
    cases xs with
    | nil => rfl
    | cons e es =>
      show (if (e :: es).length < 2 then some 0
            else facPairSum (sortTimeline tz (e :: es)))
          = some (if (e :: es).length < 2 then 0 else pairSumSpec (sortTimeline tz (e :: es)))
      by_cases hlen : (e :: es).length < 2
      · rw [if_pos hlen, if_pos hlen]
      · rw [if_neg hlen, if_neg hlen]
        exact facPairSum_eq_spec _ (fun x hx => hOk x.2 (mem_sortTimeline_events hx))
  · intro tz t1 t2 t3 h12 h23
    have hq12 : (t1 : ℚ) / 1000 < (t2 : ℚ) / 1000 := by
      have h : (t1 : ℚ) < (t2 : ℚ) := by exact_mod_cast h12
      linarith
    have hq23 : (t2 : ℚ) / 1000 < (t3 : ℚ) / 1000 := by
      have h : (t2 : ℚ) < (t3 : ℚ) := by exact_mod_cast h23
      linarith
    have hbt : buildTimeline tz [evA t1, evA t2, evB t3]
        = [((t1 : ℚ) / 1000, evA t1), ((t2 : ℚ) / 1000, evA t2),
           ((t3 : ℚ) / 1000, evB t3)] := by
      unfold buildTimeline
      simp only [buildAux, eventBase_evA, eventBase_evB]
      rw [slot_eq_of_not_mem (List.not_mem_nil _)]
      rw [slot_eq_of_not_mem (by
        intro hmem
        rw [List.mem_singleton] at hmem
        exact absurd hmem (ne_of_gt hq12))]
      rw [slot_eq_of_not_mem (by
        intro hmem
        rcases List.mem_cons.mp hmem with h1 | h2
        · exact absurd h1 (ne_of_gt hq23)
        · rw [List.mem_singleton] at h2
          exact absurd h2 (ne_of_gt (lt_trans hq12 hq23)))]
    have hst : sortTimeline tz [evA t1, evA t2, evB t3]
        = [((t1 : ℚ) / 1000, evA t1), ((t2 : ℚ) / 1000, evA t2),
           ((t3 : ℚ) / 1000, evB t3)] := by
      unfold sortTimeline
      rw [hbt]
      apply List.Sorted.insertionSort_eq
      refine List.Pairwise.cons ?_ (List.Pairwise.cons ?_ (List.pairwise_singleton _ _))
      · intro y hy
        rcases List.mem_cons.mp hy with h1 | h2
        · rw [h1]; exact le_of_lt hq12
        · rw [List.mem_singleton] at h2
          rw [h2]
          exact le_of_lt (lt_trans hq12 hq23)
      · intro y hy
        rw [List.mem_singleton] at hy
        rw [hy]
        exact le_of_lt hq23
    show (if ([evA t1, evA t2, evB t3] : List PyVal).length < 2 then some 0
          else facPairSum (sortTimeline tz [evA t1, evA t2, evB t3]))
        = some (((t3 : ℚ) - (t2 : ℚ)) / 1000 / 3600)
    rw [if_neg (by simp), hst]
    rw [facPairSum_cons_cons]
    have hA1 : isFacLoc (facilityLocRaw (evA t1)) = some true := rfl
    have hA2 : isFacLoc (facilityLocRaw (evA t2)) = some true := rfl
    have hB3 : isFacLoc (facilityLocRaw (evB t3)) = some true := rfl
    rw [show (((t1 : ℚ) / 1000, evA t1) : ℚ × PyVal).2 = evA t1 from rfl,
        show (((t2 : ℚ) / 1000, evA t2) : ℚ × PyVal).2 = evA t2 from rfl,
        hA1, hA2]
    rw [facPairSum_cons_cons]
    rw [show (((t3 : ℚ) / 1000, evB t3) : ℚ × PyVal).2 = evB t3 from rfl, hA2, hB3]
    rw [show facPairSum [((t3 : ℚ) / 1000, evB t3)] = some 0 from rfl]
    simp only [Option.some_bind]
    have hPH12 : pairHours ((t1 : ℚ) / 1000, evA t1) ((t2 : ℚ) / 1000, evA t2) true true
        = 0 := by
      unfold pairHours
      rw [show (facKey (evA t1) != facKey (evA t2)) = false from rfl]
      simp
    have hkey23 : (facKey (evA t2) != facKey (evB t3)) = true := rfl
    have hpos : 0 < ((t3 : ℚ) / 1000 - (t2 : ℚ) / 1000) / 3600 := by
      have h : (t2 : ℚ) < (t3 : ℚ) := by exact_mod_cast h23
      have hlt : (0 : ℚ) < (t3 : ℚ) / 1000 - (t2 : ℚ) / 1000 := by linarith
      positivity
    have hPH23 : pairHours ((t2 : ℚ) / 1000, evA t2) ((t3 : ℚ) / 1000, evB t3) true true
        = ((t3 : ℚ) / 1000 - (t2 : ℚ) / 1000) / 3600 := by
      unfold pairHours
      rw [hkey23]
      simp only [Bool.and_self, Bool.and_true, if_true]
      rw [if_pos hpos]
    rw [hPH12, hPH23]
    congr 1
    ring

unseal Rat.add Rat.mul Rat.inv Rat.sub in
/-- Witness for C2: the general clause evaluated on the concrete three-event
timeline at T1 = 0 ms, T2 = 3600000 ms, T3 = 7200000 ms gives exactly 1 hour. -/
theorem claim_C2_witness :
    calculate_facility_transit_time 0 (.list [evA 0, evA 3600000, evB 7200000]) = some 1
    ∧ (∀ e ∈ ([evA 0, evA 3600000, evB 7200000] : List PyVal), locOk e) := by
  have hOk : ∀ e ∈ ([evA 0, evA 3600000, evB 7200000] : List PyVal), locOk e := by
    intro e he
    rcases List.mem_cons.mp he with h1 | h2
    · rw [h1]; intro hc; exact absurd hc (by decide)
    · rcases List.mem_cons.mp h2 with h3 | h4
      · rw [h3]; intro hc; exact absurd hc (by decide)
      · rw [List.mem_singleton] at h4
        rw [h4]; intro hc; exact absurd hc (by decide)
  refine ⟨?_, hOk⟩
  have h := (claim_C2_facility_transit_sum.2) 0 0 3600000 7200000 (by decide) (by decide)
  rw [h]
  norm_num

end Transit
